import Mathlib

/-!
Verification of the chiefstaker reward-accounting and stake-lifecycle engine.

The definitions below are a shallow embedding of the instruction handlers in
`src/programs/chiefstaker/src/instructions/` (deposit.rs, sync_rewards.rs,
request_unstake.rs, update_settings.rs).  Machine integers are modelled as Nat
with explicit width bounds: Rust `saturating_sub` on u64 is Nat subtraction,
`saturating_add` clamps at `U64_MAX`, `checked_mul` / `checked_add` on u128
fail above `U128_MAX`.  Account-level facts that the handlers check (signer
present, account owned by the program, PDA matches) are modelled as booleans
in a context record.  Each handler returns the error it raised (if any)
together with the durable state of the records it serializes; the durable
state is only replaced at the point where the Rust code calls `serialize`,
so an error leaves the records as they were.
-/

/-- Modelled from the spec: `WAD` is declared in `src/math.rs`, which is not
among the provided sources.  The glossary fixes it: "a fixed-point scale
factor (10^18)". -/
def WAD : ℕ := 10 ^ 18

/-- Largest value of a Rust `u64`. -/
def U64_MAX : ℕ := 2 ^ 64 - 1

/-- Largest value of a Rust `u128`. -/
def U128_MAX : ℕ := 2 ^ 128 - 1

/-- Largest value of a Rust `i64`. -/
def I64_MAX : ℤ := 2 ^ 63 - 1

/-- Smallest value of a Rust `i64`. -/
def I64_MIN : ℤ := -(2 ^ 63)

/-- Rust `u128::checked_mul`: `none` on overflow past 2^128 - 1. -/
def checkedMulU128 (a b : ℕ) : Option ℕ :=
  if a * b ≤ U128_MAX then some (a * b) else none

/-- Rust `u128::checked_add`: `none` on overflow past 2^128 - 1. -/
def checkedAddU128 (a b : ℕ) : Option ℕ :=
  if a + b ≤ U128_MAX then some (a + b) else none

/-- Rust `u64::saturating_add`: clamps at `u64::MAX`. -/
def saturatingAddU64 (a b : ℕ) : ℕ := min (a + b) U64_MAX

/-- Rust `i64::saturating_sub`: clamps into the `i64` range. -/
def saturatingSubI64 (a b : ℤ) : ℤ := max I64_MIN (min (a - b) I64_MAX)

/-- Rust `as u64` cast of an `i64` value: two's-complement wrap. -/
def i64AsU64 (v : ℤ) : ℕ := (v % 2 ^ 64).toNat

/-- Modelled from the spec: `wad_div` lives in `src/math.rs`, which is not
among the provided sources.  Spec §4.1: the scaled division computes
`value × numerator_scale / denominator` "using an intermediate width wide
enough to avoid overflow for the domain's largest expected values"; any
overflow of the (128-bit) result fails with `ArithmeticOverflow` rather than
wrapping, and division by zero is prevented structurally by callers.  The
concrete scenario of §8 (deposit 500 into 1000 staked ⇒ 0.5×WAD) pins the
numerator scale at WAD. -/
def wad_div (a b : ℕ) : Option ℕ :=
  if b = 0 then none
  else if a * WAD / b ≤ U128_MAX then some (a * WAD / b) else none

/-- The error codes raised by the handlers (`src/error.rs` names as used in
the instruction sources). -/
inductive StakingError where
  | ZeroAmount
  | MissingRequiredSigner
  | InvalidAccountOwner
  | NotInitialized
  | InvalidPDA
  | MathOverflow
  | InvalidOwner
  | InvalidPool
  | PendingUnstakeRequestExists
  | InsufficientStakeBalance
  | StakeLocked
  | AuthorityRenounced
  | InvalidAuthority
  deriving DecidableEq, Repr

/-- The pool ledger record (`StakingPool` in `src/state.rs`; fields as listed
in spec §3 and as read/written by the instruction handlers).  Pubkeys are
opaque naturals. -/
structure StakingPool where
  mint : ℕ
  authority : ℕ
  total_staked : ℕ
  acc_reward_per_weighted_share : ℕ
  last_update_time : ℤ
  last_synced_lamports : ℕ
  min_stake_amount : ℕ
  lock_duration_seconds : ℕ
  unstake_cooldown_seconds : ℕ
  tau_seconds : ℕ
  initialized : Bool
  authority_renounced : Bool
  deriving DecidableEq, Repr

/-- The per-participant stake record (`UserStake` in `src/state.rs`; fields
as listed in spec §3 and as read/written by `request_unstake.rs`). -/
structure UserStake where
  owner : ℕ
  pool : ℕ
  amount : ℕ
  last_stake_time : ℤ
  reward_snapshot : ℕ
  unstake_request_amount : ℕ
  unstake_request_time : ℤ
  initialized : Bool
  deriving DecidableEq, Repr

/-- Modelled from the spec: `UserStake.has_pending_unstake_request` is defined
in `src/state.rs`, which is not among the provided sources.  Spec §3:
"`unstake_request_amount`, `unstake_request_time` — set when a cooldown
withdrawal is requested; zero/absent otherwise", so a pending request is a
nonzero requested amount. -/
def UserStake.has_pending_unstake_request (u : UserStake) : Bool :=
  u.unstake_request_amount ≠ 0

/-- Modelled from the spec: `UserStake.effective_last_stake_time` is defined
in `src/state.rs`, which is not among the provided sources.  Spec §4.4: the
lock gate measures "elapsed time since `last_stake_time`", so the effective
last stake time is the stored `last_stake_time`. -/
def UserStake.effective_last_stake_time (u : UserStake) : ℤ :=
  u.last_stake_time

/-- Modelled from the spec: the claim-settlement operation is referenced by
the data model but not among the provided sources.  Spec §4.4: the owed
amount is "`amount × (current accumulator − reward_snapshot)` (descaled by
WAD)". -/
def claimable (amount acc snapshot : ℕ) : ℕ :=
  amount * (acc - snapshot) / WAD

/-- The pool account as the deposit handler sees it: the deserialized record
plus the account's lamport balance. -/
structure PoolAccount where
  pool : StakingPool
  lamports : ℕ
  deriving DecidableEq, Repr

/-- Account-level facts checked by `process_deposit_rewards`. -/
structure DepositCtx where
  depositor_is_signer : Bool
  pool_owned_by_program : Bool
  pool_pda_ok : Bool
  deriving DecidableEq, Repr

/-- Account-level facts checked by `process_sync_rewards`. -/
structure SyncCtx where
  pool_owned_by_program : Bool
  pool_pda_ok : Bool
  deriving DecidableEq, Repr

/-- Account-level facts checked by `process_request_unstake`. -/
structure UnstakeCtx where
  user_is_signer : Bool
  pool_owned_by_program : Bool
  stake_owned_by_program : Bool
  user_key : ℕ
  pool_key : ℕ
  deriving DecidableEq, Repr

/-- Account-level facts checked by `process_update_pool_settings`. -/
structure SettingsCtx where
  authority_is_signer : Bool
  pool_owned_by_program : Bool
  authority_key : ℕ
  deriving DecidableEq, Repr

/-- `process_deposit_rewards` (deposit.rs).  Validations in source order;
`rent_exempt_minimum` is what `Rent::minimum_balance` reports for the pool
account, `current_time` the clock reading.  The transfer of `amount` lamports
from the depositor into the pool account and the final `serialize` are the
only durable effects; every `return Err` precedes `serialize`, so the error
outcomes carry the caller's state unchanged. -/
def process_deposit_rewards (ctx : DepositCtx) (amount rent_exempt_minimum : ℕ)
    (current_time : ℤ) (s : PoolAccount) : Option StakingError × PoolAccount :=
  if amount = 0 then (some .ZeroAmount, s)
  else if ¬ ctx.depositor_is_signer then (some .MissingRequiredSigner, s)
  else if ¬ ctx.pool_owned_by_program then (some .InvalidAccountOwner, s)
  else if ¬ s.pool.initialized then (some .NotInitialized, s)
  else if ¬ ctx.pool_pda_ok then (some .InvalidPDA, s)
  else
    match checkedMulU128 s.pool.total_staked WAD with
    | none => (some .MathOverflow, s)
    | some total_staked_wad =>
      if total_staked_wad = 0 then
        -- No stakers: transfer the lamports in, leave the record untouched.
        (none, { s with lamports := s.lamports + amount })
      else
        let current_available := s.lamports - rent_exempt_minimum
        let undistributed := current_available - s.pool.last_synced_lamports
        let total_new_rewards := saturatingAddU64 amount undistributed
        match checkedMulU128 total_new_rewards WAD with
        | none => (some .MathOverflow, s)
        | some amount_wad =>
          match wad_div amount_wad total_staked_wad with
          | none => (some .MathOverflow, s)
          | some reward_per_share =>
            match checkedAddU128 s.pool.acc_reward_per_weighted_share
                reward_per_share with
            | none => (some .MathOverflow, s)
            | some new_acc =>
              let new_lamports := s.lamports + amount
              (none,
                { pool := { s.pool with
                    acc_reward_per_weighted_share := new_acc,
                    last_update_time := current_time,
                    last_synced_lamports := new_lamports - rent_exempt_minimum },
                  lamports := new_lamports })

/-- `process_sync_rewards` (sync_rewards.rs).  No transfer happens, so the
lamport balance is a plain input; only the pool record can change. -/
def process_sync_rewards (ctx : SyncCtx) (pool_lamports rent_exempt_minimum : ℕ)
    (current_time : ℤ) (pool : StakingPool) : Option StakingError × StakingPool :=
  if ¬ ctx.pool_owned_by_program then (some .InvalidAccountOwner, pool)
  else if ¬ pool.initialized then (some .NotInitialized, pool)
  else if ¬ ctx.pool_pda_ok then (some .InvalidPDA, pool)
  else
    let current_available := pool_lamports - rent_exempt_minimum
    let new_rewards := current_available - pool.last_synced_lamports
    if new_rewards = 0 then (none, pool)
    else
      match checkedMulU128 pool.total_staked WAD with
      | none => (some .MathOverflow, pool)
      | some total_staked_wad =>
        if total_staked_wad = 0 then (none, pool)
        else
          match checkedMulU128 new_rewards WAD with
          | none => (some .MathOverflow, pool)
          | some amount_wad =>
            match wad_div amount_wad total_staked_wad with
            | none => (some .MathOverflow, pool)
            | some reward_per_share =>
              match checkedAddU128 pool.acc_reward_per_weighted_share
                  reward_per_share with
              | none => (some .MathOverflow, pool)
              | some new_acc =>
                (none, { pool with
                  acc_reward_per_weighted_share := new_acc,
                  last_update_time := current_time,
                  last_synced_lamports := current_available })

/-- `process_request_unstake` (request_unstake.rs).  Returns the raised error
(if any) together with the durable pool and user-stake records; only the
user-stake record is ever serialized by this handler. -/
def process_request_unstake (ctx : UnstakeCtx) (amount : ℕ) (current_time : ℤ)
    (pool : StakingPool) (user_stake : UserStake) :
    Option StakingError × StakingPool × UserStake :=
  if amount = 0 then (some .ZeroAmount, pool, user_stake)
  else if ¬ ctx.user_is_signer then (some .MissingRequiredSigner, pool, user_stake)
  else if ¬ ctx.pool_owned_by_program then
    (some .InvalidAccountOwner, pool, user_stake)
  else if ¬ pool.initialized then (some .NotInitialized, pool, user_stake)
  else if ¬ ctx.stake_owned_by_program then
    (some .InvalidAccountOwner, pool, user_stake)
  else if ¬ user_stake.initialized then (some .NotInitialized, pool, user_stake)
  else if user_stake.owner ≠ ctx.user_key then
    (some .InvalidOwner, pool, user_stake)
  else if user_stake.pool ≠ ctx.pool_key then
    (some .InvalidPool, pool, user_stake)
  else if user_stake.has_pending_unstake_request then
    (some .PendingUnstakeRequestExists, pool, user_stake)
  else if user_stake.amount < amount then
    (some .InsufficientStakeBalance, pool, user_stake)
  else if 0 < pool.lock_duration_seconds then
    if i64AsU64 (saturatingSubI64 current_time
        user_stake.effective_last_stake_time) < pool.lock_duration_seconds then
      (some .StakeLocked, pool, user_stake)
    else
      (none, pool, { user_stake with
        unstake_request_amount := amount, unstake_request_time := current_time })
  else
    (none, pool, { user_stake with
      unstake_request_amount := amount, unstake_request_time := current_time })

/-- `process_update_pool_settings` (update_settings.rs). -/
def process_update_pool_settings (ctx : SettingsCtx)
    (min_stake lock_duration unstake_cooldown : Option ℕ)
    (pool : StakingPool) : Option StakingError × StakingPool :=
  if ¬ ctx.authority_is_signer then (some .MissingRequiredSigner, pool)
  else if ¬ ctx.pool_owned_by_program then (some .InvalidAccountOwner, pool)
  else if ¬ pool.initialized then (some .NotInitialized, pool)
  else if pool.authority_renounced then (some .AuthorityRenounced, pool)
  else if pool.authority ≠ ctx.authority_key then (some .InvalidAuthority, pool)
  else
    let p1 := match min_stake with
      | some v => { pool with min_stake_amount := v }
      | none => pool
    let p2 := match lock_duration with
      | some v => { p1 with lock_duration_seconds := v }
      | none => p1
    let p3 := match unstake_cooldown with
      | some v => { p2 with unstake_cooldown_seconds := v }
      | none => p2
    (none, p3)

/-- A pool record with the accounting fields set and everything else zeroed;
used to build concrete test states. -/
def testPool (total acc synced : ℕ) : StakingPool :=
  { mint := 0, authority := 0, total_staked := total,
    acc_reward_per_weighted_share := acc, last_update_time := 0,
    last_synced_lamports := synced, min_stake_amount := 0,
    lock_duration_seconds := 0, unstake_cooldown_seconds := 0,
    tau_seconds := 0, initialized := true, authority_renounced := false }

/-- A user-stake record with the given principal and last-stake time and no
pending request; used to build concrete test states. -/
def testStake (amt : ℕ) (t : ℤ) : UserStake :=
  { owner := 1, pool := 2, amount := amt, last_stake_time := t,
    reward_snapshot := 0, unstake_request_amount := 0,
    unstake_request_time := 0, initialized := true }

/-! ### Helper lemmas about the arithmetic primitives -/

theorem WAD_ne_zero : WAD ≠ 0 := by decide

theorem u64_mul_wad_le {x : ℕ} (hx : x ≤ U64_MAX) : x * WAD ≤ U128_MAX := by
  calc x * WAD ≤ U64_MAX * WAD := Nat.mul_le_mul_right WAD hx
    _ ≤ U128_MAX := by decide

theorem checkedMulU128_some {a b : ℕ} (h : a * b ≤ U128_MAX) :
    checkedMulU128 a b = some (a * b) := by
  simp [checkedMulU128, h]

theorem checkedAddU128_some {a b : ℕ} (h : a + b ≤ U128_MAX) :
    checkedAddU128 a b = some (a + b) := by
  simp [checkedAddU128, h]

theorem saturatingAddU64_eq {a b : ℕ} (h : a + b ≤ U64_MAX) :
    saturatingAddU64 a b = a + b := by
  simp [saturatingAddU64, h]

theorem wad_div_cancel {x T : ℕ} (hT : T ≠ 0) (hx : x ≤ U64_MAX) :
    wad_div (x * WAD) (T * WAD) = some (x * WAD / T) := by
  have hTW : T * WAD ≠ 0 := mul_ne_zero hT WAD_ne_zero
  have hcan : x * WAD * WAD / (T * WAD) = x * WAD / T :=
    Nat.mul_div_mul_right (x * WAD) T (by decide : 0 < WAD)
  have hle : x * WAD / T ≤ U128_MAX :=
    le_trans (Nat.div_le_self _ _) (u64_mul_wad_le hx)
  simp [wad_div, hTW, hcan, hle]

theorem nat_div_add_le {x y T : ℕ} :
    x / T + y / T ≤ (x + y) / T := Nat.add_div_le_add_div x y T

theorem nat_div_add_ge {x y T : ℕ} (hT : 0 < T) :
    (x + y) / T ≤ x / T + y / T + 1 := by
  rw [Nat.add_div hT]
  split <;> omega

/-! ### Success- and no-op-path equations for the handlers -/

/-- The deposit handler's distributing path: with stakers present, the call
folds the deposit plus any previously unaccounted balance into the
accumulator and re-measures `last_synced_lamports` after the transfer. -/
theorem deposit_ok_eq (ctx : DepositCtx) (amount rent : ℕ) (t : ℤ)
    (s : PoolAccount)
    (h1 : ctx.depositor_is_signer = true) (h2 : ctx.pool_owned_by_program = true)
    (h3 : ctx.pool_pda_ok = true) (h4 : s.pool.initialized = true)
    (ha : amount ≠ 0) (hT : s.pool.total_staked ≠ 0)
    (hT64 : s.pool.total_staked ≤ U64_MAX)
    (hx : amount + (s.lamports - rent - s.pool.last_synced_lamports) ≤ U64_MAX)
    (hacc : s.pool.acc_reward_per_weighted_share +
        (amount + (s.lamports - rent - s.pool.last_synced_lamports)) * WAD /
          s.pool.total_staked ≤ U128_MAX) :
    process_deposit_rewards ctx amount rent t s =
      (none,
        { pool := { s.pool with
            acc_reward_per_weighted_share :=
              s.pool.acc_reward_per_weighted_share +
                (amount + (s.lamports - rent - s.pool.last_synced_lamports)) *
                  WAD / s.pool.total_staked,
            last_update_time := t,
            last_synced_lamports := s.lamports + amount - rent },
          lamports := s.lamports + amount }) := by
  have hTW : s.pool.total_staked * WAD ≠ 0 := mul_ne_zero hT WAD_ne_zero
  simp only [process_deposit_rewards, h1, h2, h3, h4, ha,
    checkedMulU128_some (u64_mul_wad_le hT64), hTW,
    saturatingAddU64_eq hx, checkedMulU128_some (u64_mul_wad_le hx),
    wad_div_cancel hT hx, checkedAddU128_some hacc,
    if_false, if_true, not_true, ite_false, ite_true]

/-- The deposit handler's deferred path: with no stakers, the lamports are
moved in but the record is untouched. -/
theorem deposit_deferred_eq (ctx : DepositCtx) (amount rent : ℕ) (t : ℤ)
    (s : PoolAccount)
    (h1 : ctx.depositor_is_signer = true) (h2 : ctx.pool_owned_by_program = true)
    (h3 : ctx.pool_pda_ok = true) (h4 : s.pool.initialized = true)
    (ha : amount ≠ 0) (hT : s.pool.total_staked = 0) :
    process_deposit_rewards ctx amount rent t s =
      (none, { s with lamports := s.lamports + amount }) := by
  simp [process_deposit_rewards, h1, h2, h3, h4, ha, hT, checkedMulU128]

/-- The sync handler's distributing path. -/
theorem sync_ok_eq (ctx : SyncCtx) (l r : ℕ) (t : ℤ) (p : StakingPool)
    (h2 : ctx.pool_owned_by_program = true) (h3 : ctx.pool_pda_ok = true)
    (h4 : p.initialized = true)
    (hT : p.total_staked ≠ 0) (hT64 : p.total_staked ≤ U64_MAX)
    (hnr : l - r - p.last_synced_lamports ≠ 0)
    (hnr64 : l - r - p.last_synced_lamports ≤ U64_MAX)
    (hacc : p.acc_reward_per_weighted_share +
        (l - r - p.last_synced_lamports) * WAD / p.total_staked ≤ U128_MAX) :
    process_sync_rewards ctx l r t p =
      (none, { p with
        acc_reward_per_weighted_share := p.acc_reward_per_weighted_share +
          (l - r - p.last_synced_lamports) * WAD / p.total_staked,
        last_update_time := t,
        last_synced_lamports := l - r }) := by
  have hTW : p.total_staked * WAD ≠ 0 := mul_ne_zero hT WAD_ne_zero
  simp only [process_sync_rewards, h2, h3, h4, hnr,
    checkedMulU128_some (u64_mul_wad_le hT64), hTW,
    checkedMulU128_some (u64_mul_wad_le hnr64),
    wad_div_cancel hT hnr64, checkedAddU128_some hacc,
    if_false, if_true, not_true, ite_false, ite_true]

/-- The sync handler's no-op path: no newly arrived funds. -/
theorem sync_noop_eq (ctx : SyncCtx) (l r : ℕ) (t : ℤ) (p : StakingPool)
    (h2 : ctx.pool_owned_by_program = true) (h3 : ctx.pool_pda_ok = true)
    (h4 : p.initialized = true)
    (hnr : l - r - p.last_synced_lamports = 0) :
    process_sync_rewards ctx l r t p = (none, p) := by
  simp [process_sync_rewards, h2, h3, h4, hnr]

/-- The sync handler's deferred path: funds arrived but nobody is staked, so
nothing is recorded. -/
theorem sync_deferred_eq (ctx : SyncCtx) (l r : ℕ) (t : ℤ) (p : StakingPool)
    (h2 : ctx.pool_owned_by_program = true) (h3 : ctx.pool_pda_ok = true)
    (h4 : p.initialized = true) (hT : p.total_staked = 0) :
    process_sync_rewards ctx l r t p = (none, p) := by
  by_cases hnr : l - r - p.last_synced_lamports = 0
  · exact sync_noop_eq ctx l r t p h2 h3 h4 hnr
  · simp [process_sync_rewards, h2, h3, h4, hnr, hT, checkedMulU128]

/-- The request-unstake handler's success path. -/
theorem request_unstake_ok_eq (ctx : UnstakeCtx) (amount : ℕ) (t : ℤ)
    (pool : StakingPool) (u : UserStake)
    (h1 : ctx.user_is_signer = true) (h2 : ctx.pool_owned_by_program = true)
    (h3 : ctx.stake_owned_by_program = true)
    (h4 : pool.initialized = true) (h5 : u.initialized = true)
    (h6 : u.owner = ctx.user_key) (h7 : u.pool = ctx.pool_key)
    (h8 : u.unstake_request_amount = 0)
    (h9 : ¬ u.amount < amount) (ha : amount ≠ 0)
    (hlock : pool.lock_duration_seconds = 0 ∨
      pool.lock_duration_seconds ≤
        i64AsU64 (saturatingSubI64 t u.last_stake_time)) :
    process_request_unstake ctx amount t pool u =
      (none, pool, { u with
        unstake_request_amount := amount, unstake_request_time := t }) := by
  have hp : u.has_pending_unstake_request = false := by
    simp [UserStake.has_pending_unstake_request, h8]
  rcases hlock with hl | hl
  · simp [process_request_unstake, h1, h2, h3, h4, h5, h6, h7, hp, h9, ha, hl]
  · simp [process_request_unstake, h1, h2, h3, h4, h5, h6, h7, hp, h9, ha,
      UserStake.effective_last_stake_time, Nat.not_lt.mpr hl]

/-- When the clock has not gone backwards and the elapsed time fits in an
`i64`, the saturating subtraction followed by the `as u64` cast in the lock
gate is just the elapsed number of seconds. -/
theorem elapsed_cast_eq {now last : ℤ} (hclk : last ≤ now)
    (hrange : now - last ≤ I64_MAX) :
    i64AsU64 (saturatingSubI64 now last) = (now - last).toNat := by
  have h0 : (0 : ℤ) ≤ now - last := by omega
  have hmin : I64_MIN ≤ (0 : ℤ) := by decide
  have hs : saturatingSubI64 now last = now - last := by
    unfold saturatingSubI64
    rw [min_eq_left hrange]
    exact max_eq_right (le_trans hmin h0)
  rw [hs]
  unfold i64AsU64
  rw [Int.emod_eq_of_lt h0 (by
    have : I64_MAX < (2 : ℤ) ^ 64 := by decide
    omega)]

/-! ### Claim theorems -/

/-- C3: with `total_staked = 1000`, accumulator 0, `last_synced_lamports`
equal to the pre-call available balance (balance 0, rent floor 0), a deposit
of 500 sets `acc_reward_per_weighted_share` to exactly `0.5 × WAD = 5×10^17`,
and a position with `amount = 200`, `reward_snapshot = 0` then has claimable
reward `200 × (accumulator − snapshot) / WAD = 100`. -/
theorem C3_concrete_scenario :
    process_deposit_rewards ⟨true, true, true⟩ 500 0 7 ⟨testPool 1000 0 0, 0⟩ =
      (none, ⟨{ testPool 1000 0 0 with
        acc_reward_per_weighted_share := 5 * 10 ^ 17,
        last_update_time := 7, last_synced_lamports := 500 }, 500⟩) ∧
    5 * 10 ^ 17 = WAD / 2 ∧
    claimable 200 (5 * 10 ^ 17) 0 = 100 := by
  decide

/-- C2: while `total_staked = 0`, deposit still succeeds and moves the
lamports in but leaves the pool record exactly as it was, and sync succeeds
leaving the record exactly as it was; once `total_staked > 0`, the next sync
(or deposit) folds the whole unaccounted balance
`available − last_synced_lamports` into the accumulator. -/
theorem C2_zero_stake_deferral :
    (∀ (ctx : DepositCtx) (a r : ℕ) (t : ℤ) (s : PoolAccount),
      ctx.depositor_is_signer = true → ctx.pool_owned_by_program = true →
      ctx.pool_pda_ok = true → s.pool.initialized = true → a ≠ 0 →
      s.pool.total_staked = 0 →
      process_deposit_rewards ctx a r t s =
        (none, { s with lamports := s.lamports + a })) ∧
    (∀ (ctx : SyncCtx) (l r : ℕ) (t : ℤ) (p : StakingPool),
      ctx.pool_owned_by_program = true → ctx.pool_pda_ok = true →
      p.initialized = true → p.total_staked = 0 →
      process_sync_rewards ctx l r t p = (none, p)) ∧
    (∀ (ctx : SyncCtx) (l r : ℕ) (t : ℤ) (p : StakingPool),
      ctx.pool_owned_by_program = true → ctx.pool_pda_ok = true →
      p.initialized = true → p.total_staked ≠ 0 → p.total_staked ≤ U64_MAX →
      l - r - p.last_synced_lamports ≠ 0 →
      l - r - p.last_synced_lamports ≤ U64_MAX →
      p.acc_reward_per_weighted_share +
          (l - r - p.last_synced_lamports) * WAD / p.total_staked ≤ U128_MAX →
      process_sync_rewards ctx l r t p =
        (none, { p with
          acc_reward_per_weighted_share := p.acc_reward_per_weighted_share +
            (l - r - p.last_synced_lamports) * WAD / p.total_staked,
          last_update_time := t,
          last_synced_lamports := l - r })) := by
  refine ⟨?_, ?_, ?_⟩
  · intro ctx a r t s h1 h2 h3 h4 ha hT
    exact deposit_deferred_eq ctx a r t s h1 h2 h3 h4 ha hT
  · intro ctx l r t p h2 h3 h4 hT
    exact sync_deferred_eq ctx l r t p h2 h3 h4 hT
  · intro ctx l r t p h2 h3 h4 hT hT64 hnr hnr64 hacc
    exact sync_ok_eq ctx l r t p h2 h3 h4 hT hT64 hnr hnr64 hacc

/-- Witness for C2: a deferred deposit of 40 into an empty pool, a deferred
sync, and the pick-up sync after 5 units are staked. -/
theorem C2_zero_stake_deferral_witness :
    process_deposit_rewards ⟨true, true, true⟩ 40 2 5 ⟨testPool 0 0 0, 10⟩ =
      (none, ⟨testPool 0 0 0, 50⟩) ∧
    process_sync_rewards ⟨true, true⟩ 50 2 6 (testPool 0 0 0) =
      (none, testPool 0 0 0) ∧
    process_sync_rewards ⟨true, true⟩ 50 2 6 (testPool 5 0 0) =
      (none, { testPool 5 0 0 with
        acc_reward_per_weighted_share := 48 * WAD / 5,
        last_update_time := 6, last_synced_lamports := 48 }) := by
  refine ⟨?_, ?_, ?_⟩
  · have h := C2_zero_stake_deferral.1 ⟨true, true, true⟩ 40 2 5
      ⟨testPool 0 0 0, 10⟩ rfl rfl rfl rfl (by decide) rfl
    simpa using h
  · exact C2_zero_stake_deferral.2.1 ⟨true, true⟩ 50 2 6 (testPool 0 0 0)
      rfl rfl rfl rfl
  · have h := C2_zero_stake_deferral.2.2 ⟨true, true⟩ 50 2 6 (testPool 5 0 0)
      rfl rfl rfl (by decide) (by decide) (by decide) (by decide) (by decide)
    simpa using h

/-- C10: the reconciliation subtractions saturate, so a measured available
balance below `last_synced_lamports` never underflows: sync is then a
success no-op, and a deposit with stakers treats the undistributed amount as
zero, distributes only the deposited amount, and resets
`last_synced_lamports` to the post-transfer available balance. -/
theorem C10_saturating_reconciliation :
    (∀ (ctx : SyncCtx) (l r : ℕ) (t : ℤ) (p : StakingPool),
      ctx.pool_owned_by_program = true → ctx.pool_pda_ok = true →
      p.initialized = true → l - r < p.last_synced_lamports →
      process_sync_rewards ctx l r t p = (none, p)) ∧
    (∀ (ctx : DepositCtx) (a r : ℕ) (t : ℤ) (s : PoolAccount),
      ctx.depositor_is_signer = true → ctx.pool_owned_by_program = true →
      ctx.pool_pda_ok = true → s.pool.initialized = true →
      a ≠ 0 → a ≤ U64_MAX →
      s.pool.total_staked ≠ 0 → s.pool.total_staked ≤ U64_MAX →
      s.lamports - r < s.pool.last_synced_lamports →
      s.pool.acc_reward_per_weighted_share +
          a * WAD / s.pool.total_staked ≤ U128_MAX →
      process_deposit_rewards ctx a r t s =
        (none,
          { pool := { s.pool with
              acc_reward_per_weighted_share :=
                s.pool.acc_reward_per_weighted_share +
                  a * WAD / s.pool.total_staked,
              last_update_time := t,
              last_synced_lamports := s.lamports + a - r },
            lamports := s.lamports + a })) := by
  constructor
  · intro ctx l r t p h2 h3 h4 hlt
    exact sync_noop_eq ctx l r t p h2 h3 h4 (by omega)
  · intro ctx a r t s h1 h2 h3 h4 ha ha64 hT hT64 hlt hacc
    have hsub : s.lamports - r - s.pool.last_synced_lamports = 0 := by omega
    have h := deposit_ok_eq ctx a r t s h1 h2 h3 h4 ha hT hT64
      (by rw [hsub]; simpa using ha64) (by rw [hsub]; simpa using hacc)
    rw [hsub] at h
    simpa using h

/-- Witness for C10: with balance 5, rent floor 5 and `last_synced = 1000`
the sync is a no-op and a deposit of 100 distributes exactly 100; the new
`last_synced_lamports` (100) is strictly smaller than the old (1000). -/
theorem C10_saturating_reconciliation_witness :
    process_sync_rewards ⟨true, true⟩ 5 5 3 (testPool 3 0 1000) =
      (none, testPool 3 0 1000) ∧
    process_deposit_rewards ⟨true, true, true⟩ 100 5 3 ⟨testPool 3 7 1000, 5⟩ =
      (none, ⟨{ testPool 3 7 1000 with
        acc_reward_per_weighted_share := 7 + 100 * WAD / 3,
        last_update_time := 3, last_synced_lamports := 100 }, 105⟩) ∧
    (100 : ℕ) < 1000 := by
  refine ⟨?_, ?_, by decide⟩
  · exact C10_saturating_reconciliation.1 ⟨true, true⟩ 5 5 3 (testPool 3 0 1000)
      rfl rfl rfl (by decide)
  · have h := C10_saturating_reconciliation.2 ⟨true, true, true⟩ 100 5 3
      ⟨testPool 3 7 1000, 5⟩ rfl rfl rfl rfl (by decide) (by decide)
      (by decide) (by decide) (by decide) (by decide)
    simpa using h

/-- C7: with the other preconditions holding and a clock that has not gone
backwards, a request-unstake call strictly before `lock_duration_seconds`
have elapsed since the last stake fails with `StakeLocked`; exactly at the
boundary it succeeds; and with `lock_duration_seconds = 0` the gate is never
applied, at any clock reading. -/
theorem C7_lock_gate (ctx : UnstakeCtx) (amount : ℕ) (now : ℤ)
    (pool : StakingPool) (u : UserStake)
    (h1 : ctx.user_is_signer = true) (h2 : ctx.pool_owned_by_program = true)
    (h3 : ctx.stake_owned_by_program = true)
    (h4 : pool.initialized = true) (h5 : u.initialized = true)
    (h6 : u.owner = ctx.user_key) (h7 : u.pool = ctx.pool_key)
    (h8 : u.unstake_request_amount = 0) (h9 : ¬ u.amount < amount)
    (ha : amount ≠ 0)
    (hclk : u.last_stake_time ≤ now)
    (hrange : now - u.last_stake_time ≤ I64_MAX) :
    (0 < pool.lock_duration_seconds →
      ((now - u.last_stake_time).toNat < pool.lock_duration_seconds →
        process_request_unstake ctx amount now pool u =
          (some .StakeLocked, pool, u)) ∧
      ((now - u.last_stake_time).toNat = pool.lock_duration_seconds →
        process_request_unstake ctx amount now pool u =
          (none, pool, { u with
            unstake_request_amount := amount, unstake_request_time := now }))) ∧
    (pool.lock_duration_seconds = 0 →
      ∀ t : ℤ, process_request_unstake ctx amount t pool u =
        (none, pool, { u with
          unstake_request_amount := amount, unstake_request_time := t })) := by
  have hp : u.has_pending_unstake_request = false := by
    simp [UserStake.has_pending_unstake_request, h8]
  have hcast := elapsed_cast_eq hclk hrange
  constructor
  · intro hpos
    constructor
    · intro hlt
      simp [process_request_unstake, h1, h2, h3, h4, h5, h6, h7, hp, h9, ha,
        hpos, UserStake.effective_last_stake_time, hcast, hlt]
    · intro heq
      exact request_unstake_ok_eq ctx amount now pool u h1 h2 h3 h4 h5 h6 h7
        h8 h9 ha (Or.inr (by rw [hcast, heq]))
  · intro hzero t
    exact request_unstake_ok_eq ctx amount t pool u h1 h2 h3 h4 h5 h6 h7
      h8 h9 ha (Or.inl hzero)

/-- Witness for C7: lock duration 10, last stake at time 100; a request at
time 105 is rejected as locked, a request at time 110 (the exact boundary)
succeeds, and with lock duration 0 a request succeeds immediately. -/
theorem C7_lock_gate_witness :
    process_request_unstake ⟨true, true, true, 1, 2⟩ 50 105
        { testPool 100 0 0 with lock_duration_seconds := 10 } (testStake 50 100) =
      (some .StakeLocked, { testPool 100 0 0 with lock_duration_seconds := 10 },
        testStake 50 100) ∧
    process_request_unstake ⟨true, true, true, 1, 2⟩ 50 110
        { testPool 100 0 0 with lock_duration_seconds := 10 } (testStake 50 100) =
      (none, { testPool 100 0 0 with lock_duration_seconds := 10 },
        { testStake 50 100 with
          unstake_request_amount := 50, unstake_request_time := 110 }) ∧
    process_request_unstake ⟨true, true, true, 1, 2⟩ 50 100
        (testPool 100 0 0) (testStake 50 100) =
      (none, testPool 100 0 0,
        { testStake 50 100 with
          unstake_request_amount := 50, unstake_request_time := 100 }) := by
  refine ⟨?_, ?_, ?_⟩
  · exact ((C7_lock_gate ⟨true, true, true, 1, 2⟩ 50 105
      { testPool 100 0 0 with lock_duration_seconds := 10 } (testStake 50 100)
      rfl rfl rfl rfl rfl rfl rfl rfl (by decide) (by decide) (by decide)
      (by decide)).1 (by decide)).1 (by decide)
  · exact ((C7_lock_gate ⟨true, true, true, 1, 2⟩ 50 110
      { testPool 100 0 0 with lock_duration_seconds := 10 } (testStake 50 100)
      rfl rfl rfl rfl rfl rfl rfl rfl (by decide) (by decide) (by decide)
      (by decide)).1 (by decide)).2 (by decide)
  · exact (C7_lock_gate ⟨true, true, true, 1, 2⟩ 50 100
      (testPool 100 0 0) (testStake 50 100)
      rfl rfl rfl rfl rfl rfl rfl rfl (by decide) (by decide) (by decide)
      (by decide)).2 rfl 100

/-- C8: a successful request-unstake records a pending request, and any
further request-unstake on that position, with any positive amount and under
any account context that passes the account checks, fails with
`PendingUnstakeRequestExists` and changes nothing. -/
theorem C8_single_pending_request (ctx : UnstakeCtx) (a1 : ℕ) (t1 : ℤ)
    (pool : StakingPool) (u : UserStake)
    (h1 : ctx.user_is_signer = true) (h2 : ctx.pool_owned_by_program = true)
    (h3 : ctx.stake_owned_by_program = true)
    (h4 : pool.initialized = true) (h5 : u.initialized = true)
    (h6 : u.owner = ctx.user_key) (h7 : u.pool = ctx.pool_key)
    (h8 : u.unstake_request_amount = 0) (h9 : ¬ u.amount < a1)
    (ha : a1 ≠ 0)
    (hlock : pool.lock_duration_seconds = 0 ∨
      pool.lock_duration_seconds ≤
        i64AsU64 (saturatingSubI64 t1 u.last_stake_time)) :
    process_request_unstake ctx a1 t1 pool u =
      (none, pool, { u with
        unstake_request_amount := a1, unstake_request_time := t1 }) ∧
    (∀ (ctx2 : UnstakeCtx) (a2 : ℕ) (t2 : ℤ) (pool2 : StakingPool),
      ctx2.user_is_signer = true → ctx2.pool_owned_by_program = true →
      ctx2.stake_owned_by_program = true → pool2.initialized = true →
      u.owner = ctx2.user_key → u.pool = ctx2.pool_key → a2 ≠ 0 →
      process_request_unstake ctx2 a2 t2 pool2
          { u with unstake_request_amount := a1, unstake_request_time := t1 } =
        (some .PendingUnstakeRequestExists, pool2,
          { u with
            unstake_request_amount := a1, unstake_request_time := t1 })) := by
  constructor
  · exact request_unstake_ok_eq ctx a1 t1 pool u h1 h2 h3 h4 h5 h6 h7 h8 h9
      ha hlock
  · intro ctx2 a2 t2 pool2 g1 g2 g3 g4 g6 g7 ga
    simp [process_request_unstake, g1, g2, g3, g4, g6, g7, ga, h5,
      UserStake.has_pending_unstake_request, ha]

/-- Witness for C8: after a successful request for 30 of 50 staked units,
a second request (for a different amount, 5) fails with the
existing-request error. -/
theorem C8_single_pending_request_witness :
    process_request_unstake ⟨true, true, true, 1, 2⟩ 30 9
        (testPool 100 0 0) (testStake 50 0) =
      (none, testPool 100 0 0,
        { testStake 50 0 with
          unstake_request_amount := 30, unstake_request_time := 9 }) ∧
    process_request_unstake ⟨true, true, true, 1, 2⟩ 5 11 (testPool 100 0 0)
        { testStake 50 0 with
          unstake_request_amount := 30, unstake_request_time := 9 } =
      (some .PendingUnstakeRequestExists, testPool 100 0 0,
        { testStake 50 0 with
          unstake_request_amount := 30, unstake_request_time := 9 }) := by
  have h := C8_single_pending_request ⟨true, true, true, 1, 2⟩ 30 9
    (testPool 100 0 0) (testStake 50 0) rfl rfl rfl rfl rfl rfl rfl rfl
    (by decide) (by decide) (Or.inl rfl)
  exact ⟨h.1, h.2 ⟨true, true, true, 1, 2⟩ 5 11 (testPool 100 0 0)
    rfl rfl rfl rfl rfl rfl (by decide)⟩

/-- C9: a successful request-unstake only sets `unstake_request_amount` and
`unstake_request_time` on the user-stake record; principal, snapshot,
last-stake time, identity fields and the whole pool record are unchanged. -/
theorem C9_request_unstake_frame (ctx : UnstakeCtx) (amount : ℕ) (now : ℤ)
    (pool : StakingPool) (u : UserStake)
    (h1 : ctx.user_is_signer = true) (h2 : ctx.pool_owned_by_program = true)
    (h3 : ctx.stake_owned_by_program = true)
    (h4 : pool.initialized = true) (h5 : u.initialized = true)
    (h6 : u.owner = ctx.user_key) (h7 : u.pool = ctx.pool_key)
    (h8 : u.unstake_request_amount = 0) (h9 : ¬ u.amount < amount)
    (ha : amount ≠ 0)
    (hlock : pool.lock_duration_seconds = 0 ∨
      pool.lock_duration_seconds ≤
        i64AsU64 (saturatingSubI64 now u.last_stake_time)) :
    (process_request_unstake ctx amount now pool u).1 = none ∧
    (process_request_unstake ctx amount now pool u).2.1 = pool ∧
    (process_request_unstake ctx amount now pool u).2.2 =
      { u with
        unstake_request_amount := amount, unstake_request_time := now } ∧
    (process_request_unstake ctx amount now pool u).2.2.amount = u.amount ∧
    (process_request_unstake ctx amount now pool u).2.2.reward_snapshot =
      u.reward_snapshot ∧
    (process_request_unstake ctx amount now pool u).2.2.last_stake_time =
      u.last_stake_time ∧
    (process_request_unstake ctx amount now pool u).2.2.owner = u.owner ∧
    (process_request_unstake ctx amount now pool u).2.2.pool = u.pool ∧
    (process_request_unstake ctx amount now pool u).2.2.initialized =
      u.initialized := by
  have h := request_unstake_ok_eq ctx amount now pool u h1 h2 h3 h4 h5 h6 h7
    h8 h9 ha hlock
  rw [h]
  simp

/-- Witness for C9: the frame conditions at a concrete successful request. -/
theorem C9_request_unstake_frame_witness :
    (process_request_unstake ⟨true, true, true, 1, 2⟩ 30 9
      (testPool 100 0 0) (testStake 50 0)).1 = none ∧
    (process_request_unstake ⟨true, true, true, 1, 2⟩ 30 9
      (testPool 100 0 0) (testStake 50 0)).2.1 = testPool 100 0 0 ∧
    (process_request_unstake ⟨true, true, true, 1, 2⟩ 30 9
      (testPool 100 0 0) (testStake 50 0)).2.2.amount = 50 := by
  have h := C9_request_unstake_frame ⟨true, true, true, 1, 2⟩ 30 9
    (testPool 100 0 0) (testStake 50 0) rfl rfl rfl rfl rfl rfl rfl rfl
    (by decide) (by decide) (Or.inl rfl)
  exact ⟨h.1, h.2.1, h.2.2.2.1.trans (by decide)⟩

/-- Inversion for `checked_add`: a successful checked add is the plain sum. -/
theorem checkedAddU128_inv {a b c : ℕ} (h : checkedAddU128 a b = some c) :
    c = a + b := by
  unfold checkedAddU128 at h
  split at h <;> simp_all

/-- Every run of the request-unstake handler either succeeds, setting
exactly the two request fields, or fails leaving both records unchanged. -/
theorem request_unstake_cases (ctx : UnstakeCtx) (a : ℕ) (t : ℤ)
    (pool : StakingPool) (u : UserStake) :
    process_request_unstake ctx a t pool u =
      (none, pool,
        { u with unstake_request_amount := a, unstake_request_time := t }) ∨
    ∃ e, process_request_unstake ctx a t pool u = (some e, pool, u) := by
  unfold process_request_unstake
  by_cases h1 : a = 0
  · rw [if_pos h1]; exact Or.inr ⟨_, rfl⟩
  rw [if_neg h1]
  by_cases h2 : ¬ ctx.user_is_signer = true
  · rw [if_pos h2]; exact Or.inr ⟨_, rfl⟩
  rw [if_neg h2]
  by_cases h3 : ¬ ctx.pool_owned_by_program = true
  · rw [if_pos h3]; exact Or.inr ⟨_, rfl⟩
  rw [if_neg h3]
  by_cases h4 : ¬ pool.initialized = true
  · rw [if_pos h4]; exact Or.inr ⟨_, rfl⟩
  rw [if_neg h4]
  by_cases h5 : ¬ ctx.stake_owned_by_program = true
  · rw [if_pos h5]; exact Or.inr ⟨_, rfl⟩
  rw [if_neg h5]
  by_cases h6 : ¬ u.initialized = true
  · rw [if_pos h6]; exact Or.inr ⟨_, rfl⟩
  rw [if_neg h6]
  by_cases h7 : u.owner ≠ ctx.user_key
  · rw [if_pos h7]; exact Or.inr ⟨_, rfl⟩
  rw [if_neg h7]
  by_cases h8 : u.pool ≠ ctx.pool_key
  · rw [if_pos h8]; exact Or.inr ⟨_, rfl⟩
  rw [if_neg h8]
  by_cases h9 : u.has_pending_unstake_request = true
  · rw [if_pos h9]; exact Or.inr ⟨_, rfl⟩
  rw [if_neg h9]
  by_cases h10 : u.amount < a
  · rw [if_pos h10]; exact Or.inr ⟨_, rfl⟩
  rw [if_neg h10]
  by_cases h11 : 0 < pool.lock_duration_seconds
  · rw [if_pos h11]
    by_cases h12 : i64AsU64 (saturatingSubI64 t u.effective_last_stake_time) <
      pool.lock_duration_seconds
    · rw [if_pos h12]; exact Or.inr ⟨_, rfl⟩
    · rw [if_neg h12]; exact Or.inl rfl
  · rw [if_neg h11]; exact Or.inl rfl

/-- C5: no operation ever decreases `acc_reward_per_weighted_share`: every
deposit, sync, settings update or unstake request leaves the persisted
accumulator unchanged or larger. -/
theorem C5_accumulator_monotone :
    (∀ (ctx : DepositCtx) (a r : ℕ) (t : ℤ) (s : PoolAccount),
      s.pool.acc_reward_per_weighted_share ≤
        ((process_deposit_rewards ctx a r t s).2).pool.acc_reward_per_weighted_share) ∧
    (∀ (ctx : SyncCtx) (l r : ℕ) (t : ℤ) (p : StakingPool),
      p.acc_reward_per_weighted_share ≤
        ((process_sync_rewards ctx l r t p).2).acc_reward_per_weighted_share) ∧
    (∀ (ctx : SettingsCtx) (m lk cd : Option ℕ) (p : StakingPool),
      p.acc_reward_per_weighted_share ≤
        ((process_update_pool_settings ctx m lk cd p).2).acc_reward_per_weighted_share) ∧
    (∀ (ctx : UnstakeCtx) (a : ℕ) (t : ℤ) (pool : StakingPool) (u : UserStake),
      pool.acc_reward_per_weighted_share ≤
        ((process_request_unstake ctx a t pool u).2.1).acc_reward_per_weighted_share) := by
  refine ⟨?_, ?_, ?_, ?_⟩
  · intro ctx a r t s
    unfold process_deposit_rewards
    simp only []
    repeat' split
    all_goals try exact le_refl _
    all_goals rename_i hadd
    all_goals rw [checkedAddU128_inv hadd]
    all_goals exact Nat.le_add_right _ _
  · intro ctx l r t p
    unfold process_sync_rewards
    simp only []
    repeat' split
    all_goals try exact le_refl _
    all_goals rename_i hadd
    all_goals rw [checkedAddU128_inv hadd]
    all_goals exact Nat.le_add_right _ _
  · intro ctx m lk cd p
    unfold process_update_pool_settings
    simp only []
    repeat' split
    all_goals exact le_refl _
  · intro ctx a t pool u
    rcases request_unstake_cases ctx a t pool u with h | ⟨e, h⟩ <;>
      rw [h]

/-- Every error return of the deposit handler happens before its `serialize`
call, so the durable state is the input state. -/
theorem deposit_error_frame (ctx : DepositCtx) (a r : ℕ) (t : ℤ)
    (s : PoolAccount) :
    ((process_deposit_rewards ctx a r t s).1).isSome = true →
      (process_deposit_rewards ctx a r t s).2 = s := by
  unfold process_deposit_rewards
  simp only []
  repeat' split
  all_goals intro h
  all_goals first | rfl | simp at h

/-- Every error return of the sync handler happens before its `serialize`
call. -/
theorem sync_error_frame (ctx : SyncCtx) (l r : ℕ) (t : ℤ)
    (p : StakingPool) :
    ((process_sync_rewards ctx l r t p).1).isSome = true →
      (process_sync_rewards ctx l r t p).2 = p := by
  unfold process_sync_rewards
  simp only []
  repeat' split
  all_goals intro h
  all_goals first | rfl | simp at h

/-- Every error return of the settings handler happens before its
`serialize` call. -/
theorem settings_error_frame (ctx : SettingsCtx) (m lk cd : Option ℕ)
    (p : StakingPool) :
    ((process_update_pool_settings ctx m lk cd p).1).isSome = true →
      (process_update_pool_settings ctx m lk cd p).2 = p := by
  unfold process_update_pool_settings
  simp only []
  repeat' split
  all_goals intro h
  all_goals first | rfl | simp at h

/-- Every error return of the request-unstake handler happens before its
`serialize` call. -/
theorem unstake_error_frame (ctx : UnstakeCtx) (a : ℕ) (t : ℤ)
    (pool : StakingPool) (u : UserStake) :
    ((process_request_unstake ctx a t pool u).1).isSome = true →
      (process_request_unstake ctx a t pool u).2 = (pool, u) := by
  rcases request_unstake_cases ctx a t pool u with h | ⟨e, h⟩ <;>
    rw [h] <;> intro hs
  · simp at hs
  · rfl

/-- C6: validate-then-mutate — whenever an operation returns an error, the
persisted pool and user-stake records (and, for deposit, the pool balance)
are exactly what they were before the call. -/
theorem C6_validate_then_mutate :
    (∀ (ctx : DepositCtx) (a r : ℕ) (t : ℤ) (s : PoolAccount)
        (e : StakingError) (s' : PoolAccount),
      process_deposit_rewards ctx a r t s = (some e, s') → s' = s) ∧
    (∀ (ctx : SyncCtx) (l r : ℕ) (t : ℤ) (p : StakingPool)
        (e : StakingError) (p' : StakingPool),
      process_sync_rewards ctx l r t p = (some e, p') → p' = p) ∧
    (∀ (ctx : SettingsCtx) (m lk cd : Option ℕ) (p : StakingPool)
        (e : StakingError) (p' : StakingPool),
      process_update_pool_settings ctx m lk cd p = (some e, p') → p' = p) ∧
    (∀ (ctx : UnstakeCtx) (a : ℕ) (t : ℤ) (pool : StakingPool) (u : UserStake)
        (e : StakingError) (p' : StakingPool) (u' : UserStake),
      process_request_unstake ctx a t pool u = (some e, p', u') →
        p' = pool ∧ u' = u) := by
  refine ⟨?_, ?_, ?_, ?_⟩
  · intro ctx a r t s e s' h
    have h2 := deposit_error_frame ctx a r t s (by rw [h]; rfl)
    rw [h] at h2
    exact h2
  · intro ctx l r t p e p' h
    have h2 := sync_error_frame ctx l r t p (by rw [h]; rfl)
    rw [h] at h2
    exact h2
  · intro ctx m lk cd p e p' h
    have h2 := settings_error_frame ctx m lk cd p (by rw [h]; rfl)
    rw [h] at h2
    exact h2
  · intro ctx a t pool u e p' u' h
    have h2 := unstake_error_frame ctx a t pool u (by rw [h]; rfl)
    rw [h] at h2
    simpa using h2

/-- Witness for C6: concrete failing calls of all four operations leave
their records untouched: a zero-amount deposit, a sync on a foreign-owned
pool account, a settings update by the wrong authority, and a zero-amount
unstake request. -/
theorem C6_validate_then_mutate_witness :
    (process_deposit_rewards ⟨true, true, true⟩ 0 1 2 ⟨testPool 3 0 0, 7⟩).2 =
      ⟨testPool 3 0 0, 7⟩ ∧
    (process_sync_rewards ⟨false, true⟩ 9 0 0 (testPool 3 0 0)).2 =
      testPool 3 0 0 ∧
    (process_update_pool_settings ⟨true, true, 5⟩ (some 1) none none
      (testPool 3 0 0)).2 = testPool 3 0 0 ∧
    (process_request_unstake ⟨true, true, true, 1, 2⟩ 0 0 (testPool 3 0 0)
      (testStake 5 0)).2.1 = testPool 3 0 0 ∧
    (process_request_unstake ⟨true, true, true, 1, 2⟩ 0 0 (testPool 3 0 0)
      (testStake 5 0)).2.2 = testStake 5 0 := by
  refine ⟨?_, ?_, ?_, ?_⟩
  · exact C6_validate_then_mutate.1 ⟨true, true, true⟩ 0 1 2
      ⟨testPool 3 0 0, 7⟩ .ZeroAmount _ (by decide)
  · exact C6_validate_then_mutate.2.1 ⟨false, true⟩ 9 0 0 (testPool 3 0 0)
      .InvalidAccountOwner _ (by decide)
  · exact C6_validate_then_mutate.2.2.1 ⟨true, true, 5⟩ (some 1) none none
      (testPool 3 0 0) .InvalidAuthority _ (by decide)
  · exact C6_validate_then_mutate.2.2.2 ⟨true, true, true, 1, 2⟩ 0 0
      (testPool 3 0 0) (testStake 5 0) .ZeroAmount _ _ (by decide)

/-- Inversion for `checked_mul`: a successful checked multiply is the plain
product. -/
theorem checkedMulU128_inv {a b c : ℕ} (h : checkedMulU128 a b = some c) :
    c = a * b := by
  unfold checkedMulU128 at h
  split at h <;> simp_all

/-- Case characterization of the sync handler: it errors leaving the record
unchanged, no-ops (nothing new, or no stakers) leaving the record unchanged,
or distributes, advancing the accumulator and setting
`last_synced_lamports := available`. -/
theorem sync_cases (ctx : SyncCtx) (l r : ℕ) (t : ℤ) (p : StakingPool) :
    (∃ e, process_sync_rewards ctx l r t p = (some e, p)) ∨
    ((ctx.pool_owned_by_program = true ∧ p.initialized = true ∧
        ctx.pool_pda_ok = true) ∧
      ((l - r - p.last_synced_lamports = 0 ∧
          process_sync_rewards ctx l r t p = (none, p)) ∨
        (p.total_staked = 0 ∧
          process_sync_rewards ctx l r t p = (none, p)) ∨
        (∃ acc2, process_sync_rewards ctx l r t p =
          (none, { p with
            acc_reward_per_weighted_share := acc2,
            last_update_time := t,
            last_synced_lamports := l - r })))) := by
  unfold process_sync_rewards
  simp only []
  repeat' split
  all_goals try exact Or.inl ⟨_, rfl⟩
  all_goals refine Or.inr ⟨⟨by tauto, by tauto, by tauto⟩, ?_⟩
  · exact Or.inl ⟨by assumption, rfl⟩
  · rename_i hmul hz
    have hTW := checkedMulU128_inv hmul
    have hT : p.total_staked = 0 := by
      rcases Nat.mul_eq_zero.mp (hTW.symm.trans hz) with h | h
      · exact h
      · exact absurd h WAD_ne_zero
    exact Or.inr (Or.inl ⟨hT, rfl⟩)
  · exact Or.inr (Or.inr ⟨_, rfl⟩)

/-- C4: sync is idempotent — after a successful sync, repeating the call
against the same balance and rent floor (at any later clock reading) is a
success no-op leaving every pool field unchanged. -/
theorem C4_sync_idempotent (ctx : SyncCtx) (l r : ℕ) (t t2 : ℤ)
    (p p' : StakingPool)
    (h : process_sync_rewards ctx l r t p = (none, p')) :
    process_sync_rewards ctx l r t2 p' = (none, p') := by
  rcases sync_cases ctx l r t p with ⟨e, he⟩ | ⟨⟨hf1, hf2, hf3⟩, hcase⟩
  · rw [he] at h
    simp at h
  rcases hcase with ⟨hnr, he⟩ | ⟨hT, he⟩ | ⟨acc2, he⟩
  · have hp := he.symm.trans h
    simp only [Prod.mk.injEq] at hp
    obtain ⟨-, hpp⟩ := hp
    subst hpp
    exact sync_noop_eq ctx l r t2 p hf1 hf3 hf2 hnr
  · have hp := he.symm.trans h
    simp only [Prod.mk.injEq] at hp
    obtain ⟨-, hpp⟩ := hp
    subst hpp
    exact sync_deferred_eq ctx l r t2 p hf1 hf3 hf2 hT
  · have hp := he.symm.trans h
    simp only [Prod.mk.injEq] at hp
    obtain ⟨-, hpp⟩ := hp
    rw [← hpp]
    exact sync_noop_eq ctx l r t2 _ hf1 hf3 hf2 (by simp)

/-- Witness for C4: syncing 10 new lamports into a pool with 2 staked units
advances the accumulator to 5×WAD; an immediate second sync at a later time
is a no-op. -/
theorem C4_sync_idempotent_witness :
    process_sync_rewards ⟨true, true⟩ 10 0 7
      { testPool 2 0 0 with
        acc_reward_per_weighted_share := 5 * WAD,
        last_synced_lamports := 10 } =
      (none, { testPool 2 0 0 with
        acc_reward_per_weighted_share := 5 * WAD,
        last_synced_lamports := 10 }) := by
  exact C4_sync_idempotent ⟨true, true⟩ 10 0 0 7 (testPool 2 0 0) _ (by decide)

/-- `deposit_ok_eq` restated over the record and balance separately. -/
theorem deposit_ok_eq2 (ctx : DepositCtx) (amount rent : ℕ) (t : ℤ)
    (p : StakingPool) (lam : ℕ)
    (h1 : ctx.depositor_is_signer = true) (h2 : ctx.pool_owned_by_program = true)
    (h3 : ctx.pool_pda_ok = true) (h4 : p.initialized = true)
    (ha : amount ≠ 0) (hT : p.total_staked ≠ 0)
    (hT64 : p.total_staked ≤ U64_MAX)
    (hx : amount + (lam - rent - p.last_synced_lamports) ≤ U64_MAX)
    (hacc : p.acc_reward_per_weighted_share +
        (amount + (lam - rent - p.last_synced_lamports)) * WAD /
          p.total_staked ≤ U128_MAX) :
    process_deposit_rewards ctx amount rent t ⟨p, lam⟩ =
      (none,
        ⟨{ p with
            acc_reward_per_weighted_share :=
              p.acc_reward_per_weighted_share +
                (amount + (lam - rent - p.last_synced_lamports)) * WAD /
                  p.total_staked,
            last_update_time := t,
            last_synced_lamports := lam + amount - rent },
          lam + amount⟩) :=
  deposit_ok_eq ctx amount rent t ⟨p, lam⟩ h1 h2 h3 h4 ha hT hT64 hx hacc

/-- C1 counterexample: with `total_staked = 3`, a deposit of 1 alongside 2
out-of-band lamports, the deposit-then-sync order folds all 3 lamports in
one division (accumulator exactly WAD) while the sync-then-deposit order
divides twice and loses one unit to rounding (accumulator WAD − 1): the two
final accumulator values are not equal. -/
theorem C1_order_commutativity_counterexample :
    process_deposit_rewards ⟨true, true, true⟩ 1 0 0 ⟨testPool 3 0 0, 2⟩ =
      (none, ⟨{ testPool 3 0 0 with
        acc_reward_per_weighted_share := 10 ^ 18,
        last_synced_lamports := 3 }, 3⟩) ∧
    process_sync_rewards ⟨true, true⟩ 3 0 0
        { testPool 3 0 0 with
          acc_reward_per_weighted_share := 10 ^ 18,
          last_synced_lamports := 3 } =
      (none, { testPool 3 0 0 with
        acc_reward_per_weighted_share := 10 ^ 18,
        last_synced_lamports := 3 }) ∧
    process_sync_rewards ⟨true, true⟩ 2 0 0 (testPool 3 0 0) =
      (none, { testPool 3 0 0 with
        acc_reward_per_weighted_share := 666666666666666666,
        last_synced_lamports := 2 }) ∧
    process_deposit_rewards ⟨true, true, true⟩ 1 0 0
        ⟨{ testPool 3 0 0 with
          acc_reward_per_weighted_share := 666666666666666666,
          last_synced_lamports := 2 }, 2⟩ =
      (none, ⟨{ testPool 3 0 0 with
        acc_reward_per_weighted_share := 999999999999999999,
        last_synced_lamports := 3 }, 3⟩) ∧
    (10 : ℕ) ^ 18 ≠ 999999999999999999 := by
  decide

/-- C1 (amended): with stakers present and a synced starting state, a
deposit of `a` and a sync that picks up out-of-band funds `b` commute up to
fixed-point rounding: both orders succeed, agree exactly on
`last_synced_lamports`, and their final accumulators differ by at most one
scaled unit (sync-then-deposit never exceeds deposit-then-sync); each
order's total scaled distribution falls short of `(a+b)×WAD` by less than
`total_staked` per distributing call (one call in deposit-then-sync, two in
sync-then-deposit), so the cumulative amount folded in is `a + b` up to
that per-call floor loss. -/
theorem C1_order_commutativity_amended
    (ctxD : DepositCtx) (ctxS : SyncCtx) (p : StakingPool) (L r a b : ℕ)
    (tA1 tA2 tB1 tB2 : ℤ)
    (hd1 : ctxD.depositor_is_signer = true)
    (hd2 : ctxD.pool_owned_by_program = true)
    (hd3 : ctxD.pool_pda_ok = true)
    (hs2 : ctxS.pool_owned_by_program = true) (hs3 : ctxS.pool_pda_ok = true)
    (hinit : p.initialized = true)
    (hT : p.total_staked ≠ 0) (hT64 : p.total_staked ≤ U64_MAX)
    (hrL : r ≤ L) (hsynced : p.last_synced_lamports = L - r)
    (ha : a ≠ 0) (hb : b ≠ 0) (hab : a + b ≤ U64_MAX)
    (hacc : p.acc_reward_per_weighted_share +
      (a + b) * WAD / p.total_staked ≤ U128_MAX) :
    ∃ pA pB : StakingPool,
      process_deposit_rewards ctxD a r tA1 ⟨p, L + b⟩ =
        (none, ⟨pA, L + b + a⟩) ∧
      process_sync_rewards ctxS (L + b + a) r tA2 pA = (none, pA) ∧
      (process_sync_rewards ctxS (L + b) r tB1 p).1 = none ∧
      process_deposit_rewards ctxD a r tB2
        ⟨(process_sync_rewards ctxS (L + b) r tB1 p).2, L + b⟩ =
        (none, ⟨pB, L + b + a⟩) ∧
      pA.acc_reward_per_weighted_share =
        p.acc_reward_per_weighted_share + (a + b) * WAD / p.total_staked ∧
      pB.acc_reward_per_weighted_share =
        p.acc_reward_per_weighted_share +
          b * WAD / p.total_staked + a * WAD / p.total_staked ∧
      pB.acc_reward_per_weighted_share ≤ pA.acc_reward_per_weighted_share ∧
      pA.acc_reward_per_weighted_share ≤
        pB.acc_reward_per_weighted_share + 1 ∧
      pA.last_synced_lamports = L + b + a - r ∧
      pB.last_synced_lamports = L + b + a - r ∧
      p.total_staked * ((a + b) * WAD / p.total_staked) ≤ (a + b) * WAD ∧
      (a + b) * WAD <
        p.total_staked * ((a + b) * WAD / p.total_staked) + p.total_staked ∧
      p.total_staked *
        (b * WAD / p.total_staked + a * WAD / p.total_staked) ≤
        (a + b) * WAD ∧
      (a + b) * WAD <
        p.total_staked *
          (b * WAD / p.total_staked + a * WAD / p.total_staked) +
          2 * p.total_staked := by
  have hTpos : 0 < p.total_staked := Nat.pos_of_ne_zero hT
  have ha64 : a ≤ U64_MAX := by omega
  have hb64 : b ≤ U64_MAX := by omega
  -- floor-division comparisons between the one-shot and the two-shot fold
  have hdiv_le : a * WAD / p.total_staked + b * WAD / p.total_staked ≤
      (a + b) * WAD / p.total_staked := by
    rw [add_mul]
    exact nat_div_add_le
  have hdiv_ge : (a + b) * WAD / p.total_staked ≤
      a * WAD / p.total_staked + b * WAD / p.total_staked + 1 := by
    rw [add_mul]
    exact nat_div_add_ge hTpos
  have hmono_b : b * WAD / p.total_staked ≤ (a + b) * WAD / p.total_staked :=
    Nat.div_le_div_right (Nat.mul_le_mul_right WAD (by omega))
  have hacc_b : p.acc_reward_per_weighted_share +
      b * WAD / p.total_staked ≤ U128_MAX := by omega
  have hacc_ba : p.acc_reward_per_weighted_share + b * WAD / p.total_staked +
      a * WAD / p.total_staked ≤ U128_MAX := by omega
  -- order A, step 1: the deposit folds a + b at once
  have e1 : a + ((L + b) - r - p.last_synced_lamports) = a + b := by omega
  have hA1 := deposit_ok_eq2 ctxD a r tA1 p (L + b) hd1 hd2 hd3 hinit ha hT
    hT64 (by rw [e1]; exact hab) (by rw [e1]; exact hacc)
  rw [e1] at hA1
  -- order B, step 1: the sync folds b
  have e2 : (L + b) - r - p.last_synced_lamports = b := by omega
  have hB1 := sync_ok_eq ctxS (L + b) r tB1 p hs2 hs3 hinit hT hT64
    (by rw [e2]; exact hb) (by rw [e2]; exact hb64) (by rw [e2]; exact hacc_b)
  rw [e2] at hB1
  -- order B, step 2: the deposit folds a on the synced record
  have e3 : a + ((L + b) - r - (L + b - r)) = a := by omega
  have hB2 := deposit_ok_eq2 ctxD a r tB2
    { p with
      acc_reward_per_weighted_share :=
        p.acc_reward_per_weighted_share + b * WAD / p.total_staked,
      last_update_time := tB1,
      last_synced_lamports := L + b - r }
    (L + b) hd1 hd2 hd3 hinit ha hT hT64
    (by dsimp only; rw [e3]; exact le_trans (by omega) hab)
    (by dsimp only; rw [e3]; exact hacc_ba)
  dsimp only at hB2
  rw [e3] at hB2
  -- scaled distribution accounting
  have hq1 := Nat.div_add_mod ((a + b) * WAD) p.total_staked
  have hr1 := Nat.mod_lt ((a + b) * WAD) hTpos
  have hq2 := Nat.div_add_mod (a * WAD) p.total_staked
  have hr2 := Nat.mod_lt (a * WAD) hTpos
  have hq3 := Nat.div_add_mod (b * WAD) p.total_staked
  have hr3 := Nat.mod_lt (b * WAD) hTpos
  have hdistr : (a + b) * WAD = a * WAD + b * WAD := add_mul a b WAD
  have hma : p.total_staked *
      (b * WAD / p.total_staked + a * WAD / p.total_staked) =
      p.total_staked * (b * WAD / p.total_staked) +
        p.total_staked * (a * WAD / p.total_staked) :=
    Nat.mul_add p.total_staked _ _
  refine ⟨{ p with
      acc_reward_per_weighted_share :=
        p.acc_reward_per_weighted_share + (a + b) * WAD / p.total_staked,
      last_update_time := tA1,
      last_synced_lamports := L + b + a - r },
    { p with
      acc_reward_per_weighted_share :=
        p.acc_reward_per_weighted_share +
          b * WAD / p.total_staked + a * WAD / p.total_staked,
      last_update_time := tB2,
      last_synced_lamports := L + b + a - r },
    hA1, ?_, ?_, ?_, rfl, rfl, by dsimp only; omega, by dsimp only; omega,
    rfl, rfl, by omega, by omega, by omega, by omega⟩
  · exact sync_noop_eq ctxS (L + b + a) r tA2 _ hs2 hs3 hinit
      (by show L + b + a - r - (L + b + a - r) = 0; omega)
  · rw [hB1]
  · rw [hB1]
    exact hB2

/-- Witness for the amended C1: total_staked 3, deposit 1, out-of-band 2 —
both orders succeed and the accumulators agree within one scaled unit. -/
theorem C1_order_commutativity_amended_witness :
    ∃ pA pB : StakingPool,
      process_deposit_rewards ⟨true, true, true⟩ 1 0 0 ⟨testPool 3 0 0, 2⟩ =
        (none, ⟨pA, 3⟩) ∧
      process_sync_rewards ⟨true, true⟩ 3 0 0 pA = (none, pA) ∧
      (process_sync_rewards ⟨true, true⟩ 2 0 0 (testPool 3 0 0)).1 = none ∧
      process_deposit_rewards ⟨true, true, true⟩ 1 0 0
        ⟨(process_sync_rewards ⟨true, true⟩ 2 0 0 (testPool 3 0 0)).2, 2⟩ =
        (none, ⟨pB, 3⟩) ∧
      pB.acc_reward_per_weighted_share ≤ pA.acc_reward_per_weighted_share ∧
      pA.acc_reward_per_weighted_share ≤
        pB.acc_reward_per_weighted_share + 1 := by
  obtain ⟨pA, pB, h1, h2, h3, h4, -, -, h7, h8, -, -, -, -, -, -⟩ :=
    C1_order_commutativity_amended ⟨true, true, true⟩ ⟨true, true⟩
      (testPool 3 0 0) 0 0 1 2 0 0 0 0 rfl rfl rfl rfl rfl rfl
      (by decide) (by decide) (by decide) (by decide) (by decide) (by decide)
      (by decide) (by decide)
  exact ⟨pA, pB, by simpa using h1, h2, by simpa using h3,
    by simpa using h4, h7, h8⟩
